import Mathlib

/-!
Shallow embedding of the RabbitMQ batching consumer of
`internal/infrastructure/messaging/consumer` (file `consumer.go`):
the `Consumer.Start` event loop and the `Consumer.sendEmail` dispatch
function, together with the parts of `internal/config` they use.

The loop is modelled as a step function over an explicit state (the
accumulated `batch` slice) driven by a list of wake events — the three
`select` arms of `Start` (context cancellation, a delivery from the
`msgs` channel which may also report the channel as closed, and the
batch timer firing).  Every externally visible effect of the Go code is
recorded in an action trace: `Ack`/`Nack` calls on deliveries, calls to
`sendEmail`, the `config.New()` load inside `sendEmail`, the SMTP send
attempt, timer starts/resets, and the "No ResponsibleEmail" warning.
External outcomes (the result of `config.New()` and of `e.Send`) are
supplied by an environment carried on each wake event.
-/

namespace ProductsCrud

/-- ProductEvent mirrors the struct decoded from the message body:
`{event, sku, name, responsible_email}`. -/
structure ProductEvent where
  event : String
  sku : Int
  name : String
  responsibleEmail : String
deriving DecidableEq

/-- Payload models the body of an `amqp091.Delivery`: either it
unmarshals to a `ProductEvent` (`good`) or `json.Unmarshal` fails
(`bad`). -/
inductive Payload
  | good (e : ProductEvent)
  | bad
deriving DecidableEq

/-- Delivery models one `amqp091.Delivery`: `tag` stands for the
delivery's acknowledgment handle (its delivery tag), `payload` for the
body. -/
structure Delivery where
  tag : Nat
  payload : Payload
deriving DecidableEq

/-- batchItem mirrors the Go `batchItem` struct: the deserialized event
together with the original message, kept so the message can be acked or
nacked after processing. -/
structure batchItem where
  event : ProductEvent
  msg : Delivery
deriving DecidableEq

/-- Configs mirrors the `config.Configs` struct of `internal/config`.
Note it has no batch-capacity or batch-timeout field: the configuration
surface is database, JWT, RabbitMQ and SMTP settings only. -/
structure Configs where
  dbHost : String
  dbPort : String
  dbDatabase : String
  dbUsername : String
  dbPassword : String
  appEnv : String
  jwtKey : String
  rabbitMQURL : String
  smtpFrom : String
  smtpUser : String
  smtpPassword : String
  smtpHost : String
  smtpPort : String
  jwtSecret : String
deriving DecidableEq

/-- DispatchEnv supplies the outcomes of the two external calls made by
`sendEmail`: `cfg` is the result of `config.New()` (`none` = it returned
an error), `sendOk` is whether `e.Send` succeeds. -/
structure DispatchEnv where
  cfg : Option Configs
  sendOk : Bool
deriving DecidableEq

/-- Action records one externally visible effect of the consumer loop,
in program order. -/
inductive Action
  /-- `time.NewTimer(batchTimeout)` at the top of `Start`. -/
  | timerStart
  /-- `batchTimer.Reset(batchTimeout)`. -/
  | timerReset
  /-- `msg.Ack(false)` on the delivery with this tag. -/
  | ack (tag : Nat)
  /-- `msg.Nack(false, true)` — negative acknowledge with requeue. -/
  | nack (tag : Nat)
  /-- entry into `c.sendEmail(events)`. -/
  | sendEmailCall (events : List ProductEvent)
  /-- the `config.New()` call inside `sendEmail`. -/
  | loadConfig
  /-- the SMTP send attempt (`e.Send`), with the `To` address used. -/
  | dispatch (events : List ProductEvent) (toAddr : String)
  /-- the `"No ResponsibleEmail provided for batch"` warning log. -/
  | warnNoEmail
deriving DecidableEq

/-- GoErrVal models the non-nil `error` values `Start` can return from
its loop: `ctx.Err()` after cancellation, or
`fmt.Errorf("message channel closed")`. -/
inductive GoErrVal
  | ctxCanceled
  | chanClosedErr
deriving DecidableEq

/-- LoopState is the mutable state of the `Start` loop: the `batch`
slice.  (The timer is not part of the state; timer starts/resets are
recorded as actions and timer expiry arrives as a wake event.) -/
structure LoopState where
  batch : List batchItem
deriving DecidableEq

/-- WakeEvent is one wake-up of the `select` statement.  `msg` is a
delivery received on the `msgs` channel; `chanClosed` is the channel
being closed (`ok == false`); `timer` is `batchTimer.C` firing; `ctxDone`
is `ctx.Done()`.  Each carries the environment for any `sendEmail` call
made while handling it. -/
inductive WakeEvent
  | ctxDone (env : DispatchEnv)
  | chanClosed (env : DispatchEnv)
  | msg (d : Delivery) (env : DispatchEnv)
  | timer (env : DispatchEnv)
deriving DecidableEq

/-- batchSize is the Go constant `batchSize = 100` declared in `Start`:
maximum number of messages per batch. -/
def batchSize : Nat := 100

/-- batchTimeoutSeconds is the Go constant `batchTimeout = 5 * time.Second`
declared in `Start`, in seconds. -/
def batchTimeoutSeconds : Nat := 5

/-- firstEmail is `events[0].ResponsibleEmail`.  All uses in the source
are guarded by non-emptiness of `events`; the default is irrelevant. -/
def firstEmail (events : List ProductEvent) : String :=
  (events.headD ⟨"", 0, "", ""⟩).responsibleEmail

/-- sendEmail models `Consumer.sendEmail` at the granularity the loop
observes: the actions it performs and whether it returns a nil error.
The body: return nil at once on an empty slice; call `config.New()`
(an error, or missing SMTP host/port/from, yields a non-nil return);
otherwise build the email addressed to `events[0].ResponsibleEmail` and
attempt the SMTP send, whose outcome `env.sendOk` decides the returned
error.  Returns `(actions, ok)` with `ok = true` iff the Go function
returns `nil`. -/
def sendEmail (env : DispatchEnv) (events : List ProductEvent) :
    List Action × Bool :=
  if events.isEmpty then
    ([Action.sendEmailCall events], true)
  else
    match env.cfg with
    | none => ([Action.sendEmailCall events, Action.loadConfig], false)
    | some cfg =>
      if cfg.smtpHost = "" ∨ cfg.smtpPort = "" ∨ cfg.smtpFrom = "" then
        ([Action.sendEmailCall events, Action.loadConfig], false)
      else
        ([Action.sendEmailCall events, Action.loadConfig,
          Action.dispatch events (firstEmail events)], env.sendOk)

/-- drain models the shared shape of the `ctx.Done()` and
channel-closed branches of `Start`: if the batch is non-empty, call
`sendEmail` on its events; on error `Nack(false, true)` every message,
on success `Ack(false)` every message.  No timer reset: the function
returns right after. -/
def drain (env : DispatchEnv) (b : List batchItem) : List Action :=
  if b.isEmpty then []
  else
    let events := b.map (fun it => it.event)
    let r := sendEmail env events
    if r.2 then r.1 ++ b.map (fun it => Action.ack it.msg.tag)
    else r.1 ++ b.map (fun it => Action.nack it.msg.tag)

/-- flush models the shared shape of the size-trigger (batch full) and
timer-trigger branches of `Start` on a non-empty batch: if the first
event has a ResponsibleEmail, call `sendEmail`; on error requeue every
message, clear the batch and reset the timer; on success ack every
message, clear the batch and reset the timer.  If the first event has
no ResponsibleEmail, log a warning, skip the send, and still ack every
message, clear the batch and reset the timer. -/
def flush (env : DispatchEnv) (b : List batchItem) : List Action :=
  let events := b.map (fun it => it.event)
  if firstEmail events ≠ "" then
    let r := sendEmail env events
    if r.2 then r.1 ++ b.map (fun it => Action.ack it.msg.tag) ++ [Action.timerReset]
    else r.1 ++ b.map (fun it => Action.nack it.msg.tag) ++ [Action.timerReset]
  else
    Action.warnNoEmail ::
      (b.map (fun it => Action.ack it.msg.tag) ++ [Action.timerReset])

/-- StepOut is the outcome of one `select` iteration: continue looping
with a new state, or return from `Start` with an error value
(`some e` models the non-nil Go error actually returned; `none` would be
a nil error, which no loop exit of `Start` produces). -/
inductive StepOut
  | cont (s : LoopState)
  | ret (e : Option GoErrVal)
deriving DecidableEq

/-- step is one iteration of the `for { select { ... } }` loop of
`Consumer.Start`, returning the actions performed and the outcome.
Branches, as in the source:
`ctx.Done()` — drain any pending batch, return `ctx.Err()`;
channel closed — drain any pending batch, return the channel-closed
error; a received message — nack and continue on a decode failure,
otherwise append to the batch and flush if `len(batch) >= batchSize`;
timer fired — flush a non-empty batch, and in every case reset the
timer (a flush already ends in a reset). -/
def step (s : LoopState) (w : WakeEvent) : List Action × StepOut :=
  match w with
  | .ctxDone env => (drain env s.batch, .ret (some GoErrVal.ctxCanceled))
  | .chanClosed env => (drain env s.batch, .ret (some GoErrVal.chanClosedErr))
  | .msg d env =>
    match d.payload with
    | .bad => ([Action.nack d.tag], .cont s)
    | .good e =>
      let b := s.batch ++ [⟨e, d⟩]
      if batchSize ≤ b.length then (flush env b, .cont ⟨[]⟩)
      else ([], .cont ⟨b⟩)
  | .timer env =>
    if s.batch.isEmpty then ([Action.timerReset], .cont s)
    else (flush env s.batch, .cont ⟨[]⟩)

/-- outBatch is the batch still pending after a step outcome: the next
state's batch if the loop continues, or nothing once the function has
returned (both return paths resolve the whole batch first). -/
def outBatch : StepOut → List batchItem
  | .cont s => s.batch
  | .ret _ => []

/-- RunOut is the result of running the loop on a list of wake events:
the concatenated action trace, the final batch state, the returned
error value if the loop returned (`none` while still looping), and the
list of wake events actually consumed before returning. -/
structure RunOut where
  actions : List Action
  final : LoopState
  ret : Option (Option GoErrVal)
  consumed : List WakeEvent
deriving DecidableEq

/-- runFrom folds `step` over the wake events, stopping at the first
iteration that returns.  After a return the function's local `batch`
no longer exists, so the final state is recorded as empty; the events
after the return are not consumed. -/
def runFrom (s : LoopState) : List WakeEvent → RunOut
  | [] => ⟨[], s, none, []⟩
  | w :: T =>
    match step s w with
    | (acts, .ret g) => ⟨acts, ⟨[]⟩, some g, [w]⟩
    | (acts, .cont s') =>
      let r := runFrom s' T
      ⟨acts ++ r.actions, r.final, r.ret, w :: r.consumed⟩

/-- consumerStart models `Consumer.Start` from just after the `Consume`
call: the timer is created (`time.NewTimer(batchTimeout)`) and the loop
runs from an empty batch. -/
def consumerStart (T : List WakeEvent) : RunOut :=
  let r := runFrom ⟨[]⟩ T
  ⟨Action.timerStart :: r.actions, r.final, r.ret, r.consumed⟩

/-- isResolutionOf decides whether an action resolves the delivery with
tag `t` (an ack or a requeueing nack of that tag). -/
def isResolutionOf (t : Nat) : Action → Bool
  | .ack u => u == t
  | .nack u => u == t
  | _ => false

/-- resCount counts the resolutions (acks plus nacks) of tag `t` in an
action trace. -/
def resCount (t : Nat) (acts : List Action) : Nat :=
  acts.countP (isResolutionOf t)

/-- isMsgOf decides whether a wake event is the reception of a delivery
with tag `t` (well-formed or not). -/
def isMsgOf (t : Nat) : WakeEvent → Bool
  | .msg d _ => d.tag == t
  | _ => false

/-- msgCount counts the deliveries with tag `t` received in a list of
wake events. -/
def msgCount (t : Nat) (ws : List WakeEvent) : Nat :=
  ws.countP (isMsgOf t)

/-- batchCount counts the items of a batch holding the delivery with
tag `t`. -/
def batchCount (t : Nat) (b : List batchItem) : Nat :=
  b.countP (fun it => it.msg.tag == t)

/-- isLoadConfig decides whether an action is a `config.New()` call. -/
def isLoadConfig : Action → Bool
  | .loadConfig => true
  | _ => false

/-- eventMessages mirrors the `eventMessages` map of `sendEmail`:
event type to (singular, plural) Portuguese label, `none` for unknown
types. -/
def eventMessages (k : String) : Option (String × String) :=
  if k = "product_created" then some ("criado", "criados")
  else if k = "product_updated" then some ("atualizado", "atualizados")
  else if k = "product_deleted" then some ("deletado", "deletados")
  else none

/-- countOcc is `eventCounts[k]`: the number of events of type `k` in
the batch. -/
def countOcc (k : String) (events : List ProductEvent) : Nat :=
  (events.map (fun e => e.event)).count k

/-- eventKinds is the key set of the `eventCounts` map.  Go map
iteration order is unspecified; only the set of keys and their counts
matter to the properties proved here, so the keys are listed via
`dedup`. -/
def eventKinds (events : List ProductEvent) : List String :=
  (events.map (fun e => e.event)).dedup

/-- fragment is the `fmt.Sprintf` fragment appended to
`subjectSummary` for one entry of `eventCounts`: known types use the
singular/plural label, unknown types fall back to the raw type name;
every fragment ends in a comma and a space. -/
def fragment (k : String) (count : Nat) : String :=
  match eventMessages k with
  | none =>
    if count = 1 then toString count ++ " Produto foi " ++ k ++ ", "
    else toString count ++ " Produtos foram " ++ k ++ ", "
  | some labels =>
    if count = 1 then toString count ++ " Produto foi " ++ labels.1 ++ ", "
    else toString count ++ " Produtos foram " ++ labels.2 ++ ", "

/-- subjectSummary is the accumulated `subjectSummary` string of
`sendEmail` just before the final
`subjectSummary[:len(subjectSummary)-2]` slice: one fragment per
distinct event type, concatenated with `+=`. -/
def subjectSummary (events : List ProductEvent) : String :=
  (eventKinds events).foldl
    (fun acc k => acc ++ fragment k (countOcc k events)) ""

/-- sampleEvent is a well-formed decoded event used for concrete
evaluations. -/
def sampleEvent : ProductEvent :=
  ⟨"product_created", 1, "Widget", "team@example.com"⟩

/-- sampleEvent2 is a second well-formed decoded event. -/
def sampleEvent2 : ProductEvent :=
  ⟨"product_deleted", 2, "Gadget", "team@example.com"⟩

/-- sampleDelivery wraps `sampleEvent` as a delivery with tag 1. -/
def sampleDelivery : Delivery := ⟨1, .good sampleEvent⟩

/-- sampleDelivery2 wraps `sampleEvent2` as a delivery with tag 3. -/
def sampleDelivery2 : Delivery := ⟨3, .good sampleEvent2⟩

/-- badDelivery is a delivery whose body fails to unmarshal, tag 2. -/
def badDelivery : Delivery := ⟨2, .bad⟩

/-- sampleConfigs is a fully populated configuration, as returned by a
successful `config.New()`. -/
def sampleConfigs : Configs :=
  ⟨"db", "5432", "crud", "user", "pw", "dev", "k", "amqp://mq",
   "noreply@example.com", "smtpuser", "smtppw", "smtp.example.com",
   "587", "k"⟩

/-- goodEnv is an environment where `config.New()` succeeds with full
SMTP settings and the SMTP send succeeds. -/
def goodEnv : DispatchEnv := ⟨some sampleConfigs, true⟩

/-- failEnv is an environment where `config.New()` returns an error, so
every `sendEmail` call on a non-empty batch fails. -/
def failEnv : DispatchEnv := ⟨none, false⟩

/-- ActionOK is the per-action invariant of every trace the loop can
produce: `sendEmail` is only entered with a non-empty event slice, and
every SMTP send is addressed to the first event's ResponsibleEmail. -/
def ActionOK : Action → Prop
  | .sendEmailCall events => events ≠ []
  | .dispatch events toAddr => events ≠ [] ∧ toAddr = firstEmail events
  | _ => True

/-- traceRcvStop is a concrete run: one good delivery, then context
cancellation. -/
def traceRcvStop : List WakeEvent :=
  [.msg sampleDelivery goodEnv, .ctxDone goodEnv]

/-- traceRcvTimer is a concrete run: one good delivery, then the batch
timer fires. -/
def traceRcvTimer : List WakeEvent :=
  [.msg sampleDelivery goodEnv, .timer goodEnv]

/-- traceTwoFlushes is a concrete run with two timer-triggered
flushes, each dispatching one event. -/
def traceTwoFlushes : List WakeEvent :=
  [.msg sampleDelivery goodEnv, .timer goodEnv,
   .msg sampleDelivery2 goodEnv, .timer goodEnv]

/-- nearFullState is a loop state whose batch already holds
`batchSize - 1` items, so the next decoded event reaches capacity. -/
def nearFullState : LoopState :=
  ⟨List.replicate (batchSize - 1) ⟨sampleEvent, sampleDelivery⟩⟩

/-! Counting lemmas: each step resolves exactly the deliveries it
removes from (or never adds to) the batch. -/

@[simp] lemma isResolutionOf_ack (t u : Nat) :
    isResolutionOf t (Action.ack u) = (u == t) := rfl

@[simp] lemma isResolutionOf_nack (t u : Nat) :
    isResolutionOf t (Action.nack u) = (u == t) := rfl

@[simp] lemma isResolutionOf_timerStart (t : Nat) :
    isResolutionOf t Action.timerStart = false := rfl

@[simp] lemma isResolutionOf_timerReset (t : Nat) :
    isResolutionOf t Action.timerReset = false := rfl

@[simp] lemma isResolutionOf_sendEmailCall (t : Nat)
    (events : List ProductEvent) :
    isResolutionOf t (Action.sendEmailCall events) = false := rfl

@[simp] lemma isResolutionOf_loadConfig (t : Nat) :
    isResolutionOf t Action.loadConfig = false := rfl

@[simp] lemma isResolutionOf_dispatch (t : Nat)
    (events : List ProductEvent) (toAddr : String) :
    isResolutionOf t (Action.dispatch events toAddr) = false := rfl

@[simp] lemma isResolutionOf_warnNoEmail (t : Nat) :
    isResolutionOf t Action.warnNoEmail = false := rfl

lemma resCount_append (t : Nat) (l₁ l₂ : List Action) :
    resCount t (l₁ ++ l₂) = resCount t l₁ + resCount t l₂ :=
  List.countP_append _ _ _

lemma resCount_acks (t : Nat) (b : List batchItem) :
    resCount t (b.map (fun it => Action.ack it.msg.tag)) = batchCount t b := by
  induction b with
  | nil => rfl
  | cons it b ih =>
    simp [resCount, batchCount, List.countP_cons] at ih ⊢
    omega

lemma resCount_nacks (t : Nat) (b : List batchItem) :
    resCount t (b.map (fun it => Action.nack it.msg.tag)) = batchCount t b := by
  induction b with
  | nil => rfl
  | cons it b ih =>
    simp [resCount, batchCount, List.countP_cons] at ih ⊢
    omega

lemma sendEmail_resCount (t : Nat) (env : DispatchEnv)
    (events : List ProductEvent) :
    resCount t (sendEmail env events).1 = 0 := by
  rcases env with ⟨cfg, sendOk⟩
  cases cfg <;>
    simp [sendEmail, resCount, List.countP_cons] <;>
    split_ifs <;>
    simp [List.countP_cons]

lemma flush_resCount (t : Nat) (env : DispatchEnv) (b : List batchItem) :
    resCount t (flush env b) = batchCount t b := by
  simp only [flush]
  split_ifs with h1 h2
  · rw [resCount_append, resCount_append, sendEmail_resCount,
      resCount_acks]
    simp [resCount, List.countP_cons]
  · rw [resCount_append, resCount_append, sendEmail_resCount,
      resCount_nacks]
    simp [resCount, List.countP_cons]
  · rw [show resCount t (Action.warnNoEmail ::
        (b.map (fun it => Action.ack it.msg.tag) ++ [Action.timerReset]))
        = resCount t (b.map (fun it => Action.ack it.msg.tag) ++
            [Action.timerReset]) by simp [resCount, List.countP_cons]]
    rw [resCount_append, resCount_acks]
    simp [resCount, List.countP_cons]

lemma drain_resCount (t : Nat) (env : DispatchEnv) (b : List batchItem) :
    resCount t (drain env b) = batchCount t b := by
  simp only [drain]
  split_ifs with h1 h2
  · simp [List.isEmpty_iff.mp h1, resCount, batchCount]
  · rw [resCount_append, sendEmail_resCount, resCount_acks, Nat.zero_add]
  · rw [resCount_append, sendEmail_resCount, resCount_nacks, Nat.zero_add]

@[simp] lemma isMsgOf_ctxDone (t : Nat) (env : DispatchEnv) :
    isMsgOf t (WakeEvent.ctxDone env) = false := rfl

@[simp] lemma isMsgOf_chanClosed (t : Nat) (env : DispatchEnv) :
    isMsgOf t (WakeEvent.chanClosed env) = false := rfl

@[simp] lemma isMsgOf_timer (t : Nat) (env : DispatchEnv) :
    isMsgOf t (WakeEvent.timer env) = false := rfl

@[simp] lemma isMsgOf_msg (t : Nat) (d : Delivery) (env : DispatchEnv) :
    isMsgOf t (WakeEvent.msg d env) = (d.tag == t) := rfl

lemma step_resCount (t : Nat) (s : LoopState) (w : WakeEvent) :
    resCount t (step s w).1 + batchCount t (outBatch (step s w).2)
      = msgCount t [w] + batchCount t s.batch := by
  cases w with
  | ctxDone env =>
    simp only [step, outBatch]
    rw [drain_resCount]
    simp [msgCount, List.countP_cons, batchCount]
  | chanClosed env =>
    simp only [step, outBatch]
    rw [drain_resCount]
    simp [msgCount, List.countP_cons, batchCount]
  | timer env =>
    by_cases hb : s.batch.isEmpty
    · simp [step, hb, outBatch, resCount, msgCount, List.countP_cons]
    · simp only [step, hb, Bool.false_eq_true, if_false, outBatch]
      rw [flush_resCount]
      simp [msgCount, List.countP_cons, batchCount]
  | msg d env =>
    rcases d with ⟨dtag, dpl⟩
    cases dpl with
    | bad =>
      cases hdt : dtag == t <;>
        simp [step, outBatch, msgCount, resCount, List.countP_cons, hdt] <;>
        omega
    | good e =>
      by_cases hfull : batchSize ≤ s.batch.length + 1
      · have hf := flush_resCount t env
          (s.batch ++ [(⟨e, ⟨dtag, Payload.good e⟩⟩ : batchItem)])
        cases hdt : dtag == t <;>
          simp [step, hfull, outBatch, hf, msgCount, batchCount,
            List.countP_cons, List.countP_append, hdt] <;>
          omega
      · cases hdt : dtag == t <;>
          simp [step, hfull, outBatch, msgCount, batchCount, resCount,
            List.countP_cons, List.countP_append, hdt] <;>
          omega

lemma msgCount_cons (t : Nat) (w : WakeEvent) (ws : List WakeEvent) :
    msgCount t (w :: ws) = msgCount t [w] + msgCount t ws := by
  simp [msgCount, List.countP_cons]
  omega

lemma runFrom_resCount (t : Nat) : ∀ (T : List WakeEvent) (s : LoopState),
    resCount t (runFrom s T).actions
        + batchCount t (runFrom s T).final.batch
      = msgCount t (runFrom s T).consumed + batchCount t s.batch := by
  intro T
  induction T with
  | nil => intro s; simp [runFrom, resCount, msgCount, batchCount]
  | cons w T ih =>
    intro s
    have hstep := step_resCount t s w
    cases hout : step s w with
    | mk acts out =>
      rw [hout] at hstep
      cases out with
      | ret g =>
        simp only [runFrom, hout]
        simpa [outBatch, batchCount, msgCount] using hstep
      | cont s' =>
        simp only [runFrom, hout]
        have hih := ih s'
        simp only [outBatch] at hstep
        rw [msgCount_cons, resCount_append]
        omega

lemma runFrom_ret_batch : ∀ (T : List WakeEvent) (s : LoopState),
    (runFrom s T).ret.isSome → (runFrom s T).final.batch = [] := by
  intro T
  induction T with
  | nil => intro s h; simp [runFrom] at h
  | cons w T ih =>
    intro s h
    cases hout : step s w with
    | mk acts out =>
      cases out with
      | ret g => simp [runFrom, hout]
      | cont s' =>
        simp only [runFrom, hout] at h ⊢
        exact ih s' h

lemma sendEmail_actionOK (env : DispatchEnv) (events : List ProductEvent)
    (h : events ≠ []) : ∀ a ∈ (sendEmail env events).1, ActionOK a := by
  intro a ha
  rcases env with ⟨cfg, sendOk⟩
  cases cfg with
  | none =>
    simp [sendEmail, h] at ha
    rcases ha with rfl | rfl <;> simp [ActionOK, h]
  | some cfg =>
    by_cases hs : cfg.smtpHost = "" ∨ cfg.smtpPort = "" ∨ cfg.smtpFrom = ""
    · simp [sendEmail, h, hs] at ha
      rcases ha with rfl | rfl <;> simp [ActionOK, h]
    · simp [sendEmail, h, hs] at ha
      rcases ha with rfl | rfl | rfl <;> simp [ActionOK, h]

lemma flush_actionOK (env : DispatchEnv) (b : List batchItem)
    (hb : b ≠ []) : ∀ a ∈ flush env b, ActionOK a := by
  intro a ha
  have hmap : b.map (fun it => it.event) ≠ [] := by simp [hb]
  simp only [flush] at ha
  split_ifs at ha with h1 h2
  · rcases List.mem_append.mp ha with ha | ha
    · rcases List.mem_append.mp ha with ha | ha
      · exact sendEmail_actionOK env _ hmap a ha
      · rcases List.mem_map.mp ha with ⟨it, _, rfl⟩; trivial
    · rcases List.mem_singleton.mp ha with rfl; trivial
  · rcases List.mem_append.mp ha with ha | ha
    · rcases List.mem_append.mp ha with ha | ha
      · exact sendEmail_actionOK env _ hmap a ha
      · rcases List.mem_map.mp ha with ⟨it, _, rfl⟩; trivial
    · rcases List.mem_singleton.mp ha with rfl; trivial
  · rcases List.mem_cons.mp ha with rfl | ha
    · trivial
    · rcases List.mem_append.mp ha with ha | ha
      · rcases List.mem_map.mp ha with ⟨it, _, rfl⟩; trivial
      · rcases List.mem_singleton.mp ha with rfl; trivial

lemma drain_actionOK (env : DispatchEnv) (b : List batchItem) :
    ∀ a ∈ drain env b, ActionOK a := by
  intro a ha
  simp only [drain] at ha
  split_ifs at ha with h1 h2
  · simp at ha
  · have hbne : b ≠ [] := by intro hh; rw [hh] at h1; simp at h1
    have hmap : b.map (fun it => it.event) ≠ [] := by simp [hbne]
    rcases List.mem_append.mp ha with ha | ha
    · exact sendEmail_actionOK env _ hmap a ha
    · rcases List.mem_map.mp ha with ⟨it, _, rfl⟩; trivial
  · have hbne : b ≠ [] := by intro hh; rw [hh] at h1; simp at h1
    have hmap : b.map (fun it => it.event) ≠ [] := by simp [hbne]
    rcases List.mem_append.mp ha with ha | ha
    · exact sendEmail_actionOK env _ hmap a ha
    · rcases List.mem_map.mp ha with ⟨it, _, rfl⟩; trivial

lemma step_actionOK (s : LoopState) (w : WakeEvent) :
    ∀ a ∈ (step s w).1, ActionOK a := by
  intro a ha
  cases w with
  | ctxDone env => exact drain_actionOK env s.batch a ha
  | chanClosed env => exact drain_actionOK env s.batch a ha
  | timer env =>
    by_cases hbe : s.batch.isEmpty
    · simp [step, hbe] at ha
      subst ha; trivial
    · simp only [step, hbe, Bool.false_eq_true, if_false] at ha
      have hbne : s.batch ≠ [] := by
        intro hh; rw [hh] at hbe; simp at hbe
      exact flush_actionOK env s.batch hbne a ha
  | msg d env =>
    rcases d with ⟨dtag, dpl⟩
    cases dpl with
    | bad => simp [step] at ha; subst ha; trivial
    | good e =>
      by_cases hfull : batchSize ≤ s.batch.length + 1
      · simp only [step, List.length_append, List.length_cons,
          List.length_nil, Nat.zero_add, hfull, if_pos] at ha
        exact flush_actionOK env _ (by simp) a ha
      · simp [step, hfull] at ha

lemma runFrom_actionOK : ∀ (T : List WakeEvent) (s : LoopState),
    ∀ a ∈ (runFrom s T).actions, ActionOK a := by
  intro T
  induction T with
  | nil => intro s a ha; simp [runFrom] at ha
  | cons w T ih =>
    intro s a ha
    cases hout : step s w with
    | mk acts out =>
      cases out with
      | ret g =>
        simp only [runFrom, hout] at ha
        have := step_actionOK s w a
        rw [hout] at this
        exact this ha
      | cont s' =>
        simp only [runFrom, hout] at ha
        rcases List.mem_append.mp ha with ha | ha
        · have := step_actionOK s w a
          rw [hout] at this
          exact this ha
        · exact ih s' a ha

lemma consumerStart_actionOK (T : List WakeEvent) :
    ∀ a ∈ (consumerStart T).actions, ActionOK a := by
  intro a ha
  simp only [consumerStart, List.mem_cons] at ha
  rcases ha with rfl | ha
  · trivial
  · exact runFrom_actionOK T ⟨[]⟩ a ha

/-- C1 — At-least-once resolution: on every run of the consumer loop
that terminates (by context cancellation or by the channel closing),
each delivery received by the loop — whether its payload decoded and
joined a batch or failed to decode — is resolved exactly once: for
every delivery tag, the number of acknowledge/requeue calls on that tag
equals the number of deliveries of that tag received, so no handle is
dropped unresolved and none is resolved twice. -/
theorem c1_at_least_once_resolution (T : List WakeEvent) (t : Nat)
    (h : (consumerStart T).ret.isSome = true) :
    resCount t (consumerStart T).actions
      = msgCount t (consumerStart T).consumed := by
  simp only [consumerStart] at h ⊢
  rw [show resCount t (Action.timerStart :: (runFrom ⟨[]⟩ T).actions)
      = resCount t (runFrom ⟨[]⟩ T).actions from by
    simp [resCount, List.countP_cons]]
  have hfin := runFrom_ret_batch T ⟨[]⟩ (by simpa using h)
  have hinv := runFrom_resCount t T ⟨[]⟩
  rw [hfin] at hinv
  simpa [batchCount] using hinv

/-- Witness for C1 on a concrete terminating run: one delivery is
received and the context is then cancelled; the delivery's handle is
resolved exactly once. -/
theorem c1_witness :
    (consumerStart traceRcvStop).ret.isSome = true ∧
    resCount 1 (consumerStart traceRcvStop).actions
      = msgCount 1 (consumerStart traceRcvStop).consumed :=
  ⟨by decide, c1_at_least_once_resolution traceRcvStop 1 (by decide)⟩

/-- C2 — Batch never dispatched empty: in every run of the consumer
loop, every call of `sendEmail` is made with a non-empty event slice;
and the timeout timer firing while the batch is empty performs no
dispatch at all — the step only restarts the timer and leaves the
state unchanged. -/
theorem c2_batch_never_dispatched_empty :
    (∀ (T : List WakeEvent) (events : List ProductEvent),
      Action.sendEmailCall events ∈ (consumerStart T).actions →
        events ≠ []) ∧
    (∀ (s : LoopState) (env : DispatchEnv), s.batch = [] →
      step s (WakeEvent.timer env) = ([Action.timerReset], StepOut.cont s)) := by
  constructor
  · intro T events h
    exact consumerStart_actionOK T _ h
  · intro s env hs
    simp [step, hs]

/-- Witness for C2: in the concrete run `traceRcvTimer` the one
`sendEmail` call carries the non-empty slice `[sampleEvent]`, and a
timer tick on an empty batch only restarts the timer. -/
theorem c2_witness :
    (([sampleEvent] : List ProductEvent) ≠ []) ∧
    step ⟨[]⟩ (WakeEvent.timer goodEnv)
      = ([Action.timerReset], StepOut.cont ⟨[]⟩) :=
  ⟨c2_batch_never_dispatched_empty.1 traceRcvTimer [sampleEvent] (by decide),
   c2_batch_never_dispatched_empty.2 ⟨[]⟩ goodEnv rfl⟩

lemma sendEmail_no_ack (env : DispatchEnv) (events : List ProductEvent)
    (u : Nat) : Action.ack u ∉ (sendEmail env events).1 := by
  rcases env with ⟨cfg, sendOk⟩
  cases cfg <;> simp [sendEmail] <;> split_ifs <;> simp

/-- C3 — Dispatch failure implies full uniform requeue: whenever a
non-empty batch is resolved and its `sendEmail` call returns an error,
every delivery handle in the batch receives a requeueing Nack and no
handle receives an Ack — in the shutdown/channel-closed resolution
(`drain`) unconditionally, and in the size/timeout resolution (`flush`)
whenever the send is actually attempted (first event has an address). -/
theorem c3_dispatch_failure_full_requeue (env : DispatchEnv)
    (b : List batchItem) (hb : b ≠ [])
    (hfail : (sendEmail env (b.map (fun it => it.event))).2 = false) :
    ((∀ it ∈ b, Action.nack it.msg.tag ∈ drain env b) ∧
      ∀ u, Action.ack u ∉ drain env b) ∧
    (firstEmail (b.map (fun it => it.event)) ≠ "" →
      (∀ it ∈ b, Action.nack it.msg.tag ∈ flush env b) ∧
      ∀ u, Action.ack u ∉ flush env b) := by
  have hne : ¬b.isEmpty = true := by simp [hb]
  constructor
  · constructor
    · intro it hit
      simp only [drain, hne, Bool.false_eq_true, if_false, hfail]
      exact List.mem_append_right _ (List.mem_map_of_mem _ hit)
    · intro u hmem
      simp only [drain, hne, Bool.false_eq_true, if_false, hfail] at hmem
      rcases List.mem_append.mp hmem with h | h
      · exact sendEmail_no_ack env _ u h
      · rcases List.mem_map.mp h with ⟨it, _, heq⟩
        simp at heq
  · intro h1
    constructor
    · intro it hit
      simp only [flush, h1, if_true, ne_eq, not_false_iff, hfail,
        Bool.false_eq_true, if_false]
      exact List.mem_append_left _
        (List.mem_append_right _ (List.mem_map_of_mem _ hit))
    · intro u hmem
      simp only [flush, h1, if_true, ne_eq, not_false_iff, hfail,
        Bool.false_eq_true, if_false] at hmem
      rcases List.mem_append.mp hmem with h | h
      · rcases List.mem_append.mp h with h | h
        · exact sendEmail_no_ack env _ u h
        · rcases List.mem_map.mp h with ⟨it, _, heq⟩
          simp at heq
      · simp at h

/-- Witness for C3 at a concrete one-item batch whose `sendEmail` call
fails because `config.New()` errors: the item is requeued and no ack is
issued. -/
theorem c3_witness :
    Action.nack sampleDelivery.tag
        ∈ drain failEnv [⟨sampleEvent, sampleDelivery⟩] ∧
    Action.ack 1 ∉ flush failEnv [⟨sampleEvent, sampleDelivery⟩] :=
  ⟨(c3_dispatch_failure_full_requeue failEnv [⟨sampleEvent, sampleDelivery⟩]
      (by decide) (by decide)).1.1 ⟨sampleEvent, sampleDelivery⟩ (by decide),
   ((c3_dispatch_failure_full_requeue failEnv [⟨sampleEvent, sampleDelivery⟩]
      (by decide) (by decide)).2 (by decide)).2 1⟩

lemma sendEmail_call_mem (env : DispatchEnv) (events : List ProductEvent) :
    Action.sendEmailCall events ∈ (sendEmail env events).1 := by
  rcases env with ⟨cfg, sendOk⟩
  cases cfg <;> simp [sendEmail] <;> split_ifs <;> simp

/-- C4 counterexample — the claim says the value returned for a
requested cancellation is a non-error status.  A nil Go error is
modelled as `none`; on the concrete run consisting of a single context
cancellation the loop returns `some GoErrVal.ctxCanceled`, modelling
`return ctx.Err()` — a non-nil error value (`context.Canceled`), not a
non-error status.  (It is still distinct from the channel-closed
error, which the amended theorem keeps.) -/
theorem c4_counterexample :
    (consumerStart [WakeEvent.ctxDone goodEnv]).ret
        = some (some GoErrVal.ctxCanceled) ∧
    (some GoErrVal.ctxCanceled : Option GoErrVal) ≠ none := by
  exact ⟨by decide, by decide⟩

/-- C4 amended — Shutdown drains and is distinguishable: when
cancellation is requested while the batch is non-empty, the loop
dispatches the batch (calls `sendEmail` on all its events) and resolves
(acks or requeues) every item before returning; the value returned is
`ctx.Err()` — a non-nil error — which is nevertheless distinct from
the error returned when the delivery channel closes unexpectedly. -/
theorem c4_shutdown_drains_amended (s : LoopState) (env : DispatchEnv)
    (h : s.batch ≠ []) :
    Action.sendEmailCall (s.batch.map (fun it => it.event))
        ∈ (step s (WakeEvent.ctxDone env)).1 ∧
    (∀ it ∈ s.batch,
      Action.ack it.msg.tag ∈ (step s (WakeEvent.ctxDone env)).1 ∨
      Action.nack it.msg.tag ∈ (step s (WakeEvent.ctxDone env)).1) ∧
    (step s (WakeEvent.ctxDone env)).2
      = StepOut.ret (some GoErrVal.ctxCanceled) ∧
    (step s (WakeEvent.chanClosed env)).2
      = StepOut.ret (some GoErrVal.chanClosedErr) ∧
    GoErrVal.ctxCanceled ≠ GoErrVal.chanClosedErr := by
  have hne : ¬s.batch.isEmpty = true := by simp [h]
  refine ⟨?_, ?_, by simp [step], by simp [step], by simp⟩
  · simp only [step, drain, hne, Bool.false_eq_true, if_false]
    cases hr : (sendEmail env (s.batch.map (fun it => it.event))).2
    · simp only [Bool.false_eq_true, if_false]
      exact List.mem_append_left _ (sendEmail_call_mem env _)
    · simp only [eq_self_iff_true, if_true]
      exact List.mem_append_left _ (sendEmail_call_mem env _)
  · intro it hit
    simp only [step, drain, hne, Bool.false_eq_true, if_false]
    cases hr : (sendEmail env (s.batch.map (fun it => it.event))).2
    · simp only [Bool.false_eq_true, if_false]
      exact Or.inr (List.mem_append_right _ (List.mem_map_of_mem _ hit))
    · simp only [eq_self_iff_true, if_true]
      exact Or.inl (List.mem_append_right _ (List.mem_map_of_mem _ hit))

/-- Witness for the amended C4 on a concrete one-item batch: the batch
is dispatched and the loop returns the cancellation error value. -/
theorem c4_witness :
    Action.sendEmailCall [sampleEvent]
        ∈ (step ⟨[⟨sampleEvent, sampleDelivery⟩]⟩
            (WakeEvent.ctxDone goodEnv)).1 ∧
    (step ⟨[⟨sampleEvent, sampleDelivery⟩]⟩ (WakeEvent.ctxDone goodEnv)).2
      = StepOut.ret (some GoErrVal.ctxCanceled) := by
  have h := c4_shutdown_drains_amended ⟨[⟨sampleEvent, sampleDelivery⟩]⟩
    goodEnv (by decide)
  exact ⟨h.1, h.2.2.1⟩

lemma flush_timerReset (env : DispatchEnv) (b : List batchItem) :
    Action.timerReset ∈ flush env b := by
  simp only [flush]
  split_ifs
  · exact List.mem_append_right _ (List.mem_singleton_self _)
  · exact List.mem_append_right _ (List.mem_singleton_self _)
  · exact List.mem_cons_of_mem _
      (List.mem_append_right _ (List.mem_singleton_self _))

/-- C5 counterexample — the claim says the timeout timer is started or
reset at the instant the first item is added to an empty batch, not at
consumer loop start.  On the concrete run consisting of exactly one
well-formed delivery entering an empty batch, the only timer action in
the whole trace is the `time.NewTimer` at loop start: handling the
first item performs no timer start and no timer reset. -/
theorem c5_counterexample :
    (consumerStart [WakeEvent.msg sampleDelivery goodEnv]).actions
        = [Action.timerStart] ∧
    Action.timerReset ∉ (step ⟨[]⟩ (WakeEvent.msg sampleDelivery goodEnv)).1 := by
  exact ⟨by decide, by decide⟩

/-- C5 amended — the batch timeout is measured from loop start or from
the previous flush, not from the first item: the timer is created once
when the loop starts, appending a decoded event below capacity performs
no timer action at all, and the timer is reset exactly when it fires or
when a flush completes.  A batch's timeout window can therefore begin
before its first item arrives. -/
theorem c5_timer_discipline_amended (s : LoopState) (d : Delivery)
    (e : ProductEvent) (env : DispatchEnv)
    (hg : d.payload = Payload.good e)
    (hsmall : s.batch.length + 1 < batchSize) :
    (step s (WakeEvent.msg d env)).1 = [] ∧
    (∀ env2, Action.timerReset ∈ (step s (WakeEvent.timer env2)).1) ∧
    (consumerStart []).actions = [Action.timerStart] := by
  refine ⟨?_, ?_, by decide⟩
  · rcases d with ⟨dtag, dpl⟩
    simp only at hg
    subst hg
    have hlt : ¬batchSize ≤ s.batch.length + 1 := by omega
    simp [step, hlt]
  · intro env2
    by_cases hbe : s.batch.isEmpty
    · simp [step, hbe]
    · simp only [step, hbe, Bool.false_eq_true, if_false]
      exact flush_timerReset env2 s.batch

/-- Witness for the amended C5: adding the first item to an empty batch
emits no timer action, while a timer tick does reset the timer. -/
theorem c5_witness :
    (step ⟨[]⟩ (WakeEvent.msg sampleDelivery goodEnv)).1 = [] ∧
    Action.timerReset ∈ (step ⟨[]⟩ (WakeEvent.timer goodEnv)).1 := by
  have h := c5_timer_discipline_amended ⟨[]⟩ sampleDelivery sampleEvent
    goodEnv rfl (by decide)
  exact ⟨h.1, h.2.1 goodEnv⟩

/-- C6 — Address policy: every SMTP send in every run of the loop is
addressed to the ResponsibleEmail of the dispatched batch's first
event; and when the first event of a non-empty batch has no address,
the flush skips the send with a logged warning while still resolving
(acking) every item, clearing the batch and resetting the timer — the
batch is never blocked. -/
theorem c6_address_policy :
    (∀ (T : List WakeEvent) (events : List ProductEvent) (toAddr : String),
      Action.dispatch events toAddr ∈ (consumerStart T).actions →
        toAddr = firstEmail events ∧ events ≠ []) ∧
    (∀ (env : DispatchEnv) (b : List batchItem), b ≠ [] →
      firstEmail (b.map (fun it => it.event)) = "" →
        flush env b = Action.warnNoEmail ::
          (b.map (fun it => Action.ack it.msg.tag) ++ [Action.timerReset])) := by
  constructor
  · intro T events toAddr h
    have hok := consumerStart_actionOK T _ h
    exact ⟨hok.2, hok.1⟩
  · intro env b hb h0
    simp only [flush]
    rw [if_neg (by simp [h0])]

/-- Witness for C6: the send in `traceRcvTimer` goes to the first
event's address, and a one-item batch without an address is flushed
with a warning, an ack and a timer reset. -/
theorem c6_witness :
    ("team@example.com" = firstEmail [sampleEvent] ∧
      ([sampleEvent] : List ProductEvent) ≠ []) ∧
    flush goodEnv [⟨⟨"product_created", 5, "NoAddr", ""⟩, ⟨9, Payload.bad⟩⟩]
      = [Action.warnNoEmail, Action.ack 9, Action.timerReset] :=
  ⟨c6_address_policy.1 traceRcvTimer [sampleEvent] "team@example.com"
      (by decide),
   c6_address_policy.2 goodEnv
      [⟨⟨"product_created", 5, "NoAddr", ""⟩, ⟨9, Payload.bad⟩⟩]
      (by decide) (by decide)⟩

lemma flush_resolves (env : DispatchEnv) (b : List batchItem) :
    ∀ it ∈ b, Action.ack it.msg.tag ∈ flush env b ∨
      Action.nack it.msg.tag ∈ flush env b := by
  intro it hit
  simp only [flush]
  split_ifs
  · exact Or.inl (List.mem_append_left _
      (List.mem_append_right _ (List.mem_map_of_mem _ hit)))
  · exact Or.inr (List.mem_append_left _
      (List.mem_append_right _ (List.mem_map_of_mem _ hit)))
  · exact Or.inl (List.mem_cons_of_mem _
      (List.mem_append_left _ (List.mem_map_of_mem _ hit)))

lemma flush_sendCall (env : DispatchEnv) (b : List batchItem)
    (h : firstEmail (b.map (fun it => it.event)) ≠ "") :
    Action.sendEmailCall (b.map (fun it => it.event)) ∈ flush env b := by
  simp only [flush]
  rw [if_pos h]
  split_ifs <;>
    exact List.mem_append_left _ (List.mem_append_left _
      (sendEmail_call_mem _ _))

/-- C7 — Size trigger: when a decoded event brings the batch to
capacity (`batchSize`, 100), the same loop iteration flushes it: the
batch is cleared (next state holds an empty batch), the timeout timer
is reset, every item of the full batch is resolved (acked or
requeued), and — whenever the first event carries an address — the
batch is dispatched via `sendEmail`, all without waiting for the batch
timeout. -/
theorem c7_size_trigger (s : LoopState) (d : Delivery) (e : ProductEvent)
    (env : DispatchEnv) (hg : d.payload = Payload.good e)
    (hfull : batchSize ≤ s.batch.length + 1) :
    (step s (WakeEvent.msg d env)).2 = StepOut.cont ⟨[]⟩ ∧
    Action.timerReset ∈ (step s (WakeEvent.msg d env)).1 ∧
    (∀ it ∈ s.batch ++ [(⟨e, d⟩ : batchItem)],
      Action.ack it.msg.tag ∈ (step s (WakeEvent.msg d env)).1 ∨
      Action.nack it.msg.tag ∈ (step s (WakeEvent.msg d env)).1) ∧
    (firstEmail ((s.batch ++ [(⟨e, d⟩ : batchItem)]).map
        (fun it => it.event)) ≠ "" →
      Action.sendEmailCall ((s.batch ++ [(⟨e, d⟩ : batchItem)]).map
        (fun it => it.event)) ∈ (step s (WakeEvent.msg d env)).1) := by
  rcases d with ⟨dtag, dpl⟩
  simp only at hg
  subst hg
  have hstep : step s (WakeEvent.msg ⟨dtag, Payload.good e⟩ env)
      = (flush env (s.batch ++ [⟨e, ⟨dtag, Payload.good e⟩⟩]),
          StepOut.cont ⟨[]⟩) := by
    simp [step, hfull]
  rw [hstep]
  exact ⟨rfl, flush_timerReset _ _, flush_resolves _ _,
    fun h => flush_sendCall _ _ h⟩

/-- Witness for C7: a batch of 99 items receives its 100th event and is
flushed in that same iteration — state cleared and timer reset. -/
theorem c7_witness :
    (step nearFullState (WakeEvent.msg sampleDelivery2 goodEnv)).2
      = StepOut.cont ⟨[]⟩ ∧
    Action.timerReset
      ∈ (step nearFullState (WakeEvent.msg sampleDelivery2 goodEnv)).1 := by
  have h := c7_size_trigger nearFullState sampleDelivery2 sampleEvent2
    goodEnv rfl (by decide)
  exact ⟨h.1, h.2.1⟩

/-- C8 counterexample — the claim says no configuration is re-read per
batch during operation (and that capacity/timeout are configuration
options read once at construction).  On the concrete run
`traceTwoFlushes`, which flushes two one-item batches, `config.New()`
is invoked twice — once inside each `sendEmail` call — so
configuration is re-read on every dispatched batch, not zero times.
(Capacity and timeout are in fact hard-coded constants in `Start`, and
`config.Configs` has no `batchCapacity`/`batchTimeout` field at all.) -/
theorem c8_counterexample :
    ((consumerStart traceTwoFlushes).actions.countP isLoadConfig) = 2 ∧
    ¬((consumerStart traceTwoFlushes).actions.countP isLoadConfig = 0) := by
  exact ⟨by decide, by decide⟩

/-- C8 amended — the batch capacity and batch timeout are hard-coded
constants (100 items, 5 seconds) declared in `Start` and fixed for the
loop's lifetime; they are not configuration options (`config.Configs`
carries no such field).  SMTP configuration, by contrast, is loaded
anew by `config.New()` exactly once inside every `sendEmail` call on a
non-empty batch. -/
theorem c8_config_amended (env : DispatchEnv) (events : List ProductEvent)
    (h : events ≠ []) :
    batchSize = 100 ∧ batchTimeoutSeconds = 5 ∧
    (sendEmail env events).1.countP isLoadConfig = 1 := by
  refine ⟨rfl, rfl, ?_⟩
  rcases env with ⟨cfg, sendOk⟩
  cases cfg <;>
    simp [sendEmail, h, List.countP_cons, isLoadConfig] <;>
    split_ifs <;>
    simp [List.countP_cons, isLoadConfig]

/-- Witness for the amended C8 at a concrete one-event dispatch. -/
theorem c8_witness :
    (([sampleEvent] : List ProductEvent) ≠ []) ∧
    (batchSize = 100 ∧ batchTimeoutSeconds = 5 ∧
      (sendEmail goodEnv [sampleEvent]).1.countP isLoadConfig = 1) :=
  ⟨by decide, c8_config_amended goodEnv [sampleEvent] (by decide)⟩

/-- C9 — Decode-failure isolation: a delivery whose payload fails to
decode is requeued immediately (one Nack with requeue) and the loop
state — batch contents, batch size, and the timer (no timer action is
emitted) — is left exactly as it was; in particular a malformed
payload arriving between two well-formed events leaves a batch holding
exactly those two events in order, the only emitted action being the
malformed delivery's requeue. -/
theorem c9_decode_failure_isolation :
    (∀ (s : LoopState) (d : Delivery) (env : DispatchEnv),
      d.payload = Payload.bad →
        step s (WakeEvent.msg d env)
          = ([Action.nack d.tag], StepOut.cont s)) ∧
    (∀ (e₁ e₂ : ProductEvent) (t₁ t₂ t₃ : Nat)
        (env₁ env₂ env₃ : DispatchEnv),
      (runFrom ⟨[]⟩ [WakeEvent.msg ⟨t₁, Payload.good e₁⟩ env₁,
          WakeEvent.msg ⟨t₂, Payload.bad⟩ env₂,
          WakeEvent.msg ⟨t₃, Payload.good e₂⟩ env₃]).final.batch
        = [⟨e₁, ⟨t₁, Payload.good e₁⟩⟩, ⟨e₂, ⟨t₃, Payload.good e₂⟩⟩] ∧
      (runFrom ⟨[]⟩ [WakeEvent.msg ⟨t₁, Payload.good e₁⟩ env₁,
          WakeEvent.msg ⟨t₂, Payload.bad⟩ env₂,
          WakeEvent.msg ⟨t₃, Payload.good e₂⟩ env₃]).actions
        = [Action.nack t₂]) := by
  constructor
  · intro s d env hbad
    rcases d with ⟨dtag, dpl⟩
    simp only at hbad
    subst hbad
    rfl
  · intro e₁ e₂ t₁ t₂ t₃ env₁ env₂ env₃
    constructor <;> simp [runFrom, step, batchSize]

/-- Witness for C9: a concrete malformed delivery is requeued and the
empty batch is unchanged. -/
theorem c9_witness :
    step ⟨[]⟩ (WakeEvent.msg badDelivery goodEnv)
      = ([Action.nack badDelivery.tag], StepOut.cont ⟨[]⟩) :=
  c9_decode_failure_isolation.1 ⟨[]⟩ badDelivery goodEnv rfl

lemma two_le_fragment_length (k : String) (c : Nat) :
    2 ≤ (fragment k c).length := by
  have h2 : (", ").length = 2 := rfl
  unfold fragment
  cases h : eventMessages k <;> split_ifs <;>
    simp [String.length_append, h2] <;> omega

lemma two_le_foldl_fragment (events : List ProductEvent) :
    ∀ (ks : List String) (acc : String), ks ≠ [] →
      2 ≤ (ks.foldl
        (fun acc k => acc ++ fragment k (countOcc k events)) acc).length := by
  intro ks
  induction ks with
  | nil => intro acc h; exact absurd rfl h
  | cons k ks ih =>
    intro acc h
    by_cases hk : ks = []
    · subst hk
      rw [List.foldl_cons, List.foldl_nil, String.length_append]
      have := two_le_fragment_length k (countOcc k events)
      omega
    · rw [List.foldl_cons]
      exact ih _ hk

/-- C10 — Implicit safety of subject construction: for every non-empty
event slice reaching the subject-building loop of `sendEmail`, the
accumulated `subjectSummary` string has length at least 2 (each counted
event type appends a fragment ending in a comma and a space), so the Go
slice `subjectSummary[:len(subjectSummary)-2]` is in bounds and this
path cannot panic.  (Character count bounds byte count from below, so
the byte-indexed Go slice is in bounds a fortiori.) -/
theorem c10_subject_slice_safe (events : List ProductEvent)
    (h : events ≠ []) : 2 ≤ (subjectSummary events).length := by
  unfold subjectSummary
  apply two_le_foldl_fragment
  simp [eventKinds, List.dedup_eq_nil, h]

/-- Witness for C10 at a concrete one-event batch. -/
theorem c10_witness :
    (([sampleEvent] : List ProductEvent) ≠ []) ∧
    2 ≤ (subjectSummary [sampleEvent]).length :=
  ⟨by decide, c10_subject_slice_safe [sampleEvent] (by decide)⟩

end ProductsCrud
